import Mathlib

/-!
Verification development for the Azure IR-to-Pulumi backend.

Strings are modelled as lists of Unicode code points (List Nat); the helper
String.codes turns a Lean string literal into that representation.  Python
character predicates (str.isalnum, str.isalpha, str.lower) are modelled on
their ASCII fragment, which is the fragment the naming rules of the source
are written against.  Python dictionaries are modelled as association lists
in insertion order where assignment to an existing key replaces the value in
place.  Deferred provider values (pulumi Outputs) are modelled by provenance
tags: each accumulated output entry records the id of the node whose
resources produced it.
-/

/-- Code points of a Lean string literal. -/
def String.codes (s : String) : List Nat := s.data.map Char.toNat

deriving instance DecidableEq for Except

set_option maxRecDepth 100000

namespace AzurePulumi

/-- A string, as the list of its Unicode code points. -/
abbrev Str := List Nat

/-- The code point of the hyphen character. -/
def hyphen : Nat := 45

/-- The character class of the regex [a-zA-Z0-9-] used by safe_name
(naming.py line 3). -/
def isSafeChar (c : Nat) : Bool :=
  (97 ≤ c && c ≤ 122) || (65 ≤ c && c ≤ 90) || (48 ≤ c && c ≤ 57) || c == 45

/-- Python str.strip(sep): remove the given character from both ends. -/
def pyStrip (sep : Nat) (l : Str) : Str :=
  ((l.dropWhile (fun c => c == sep)).reverse.dropWhile (fun c => c == sep)).reverse

/-- naming.py line 3: replace every character outside [a-zA-Z0-9-] with a
hyphen, keep the first 63 characters, then strip hyphens from both ends. -/
def safe_name (s : Str) : Str :=
  pyStrip hyphen ((s.map (fun c => if isSafeChar c then c else hyphen)).take 63)

/-- Python falsy-or for an optional string: an absent or empty value falls
through to the default (the pattern node.get(x) or y in the source). -/
def pyOr (a : Option Str) (b : Str) : Str :=
  match a with
  | some s => if s = [] then b else s
  | none => b

/-- ASCII fragment of Python str.isalnum. -/
def isPyAlnum (c : Nat) : Bool :=
  (97 ≤ c && c ≤ 122) || (65 ≤ c && c ≤ 90) || (48 ≤ c && c ≤ 57)

/-- ASCII fragment of Python str.isalpha. -/
def isPyAlpha (c : Nat) : Bool :=
  (97 ≤ c && c ≤ 122) || (65 ≤ c && c ≤ 90)

/-- ASCII fragment of Python str.lower, character by character. -/
def lowerChar (c : Nat) : Nat :=
  if 65 ≤ c && c ≤ 90 then c + 32 else c

/-- Decimal rendering of a number, as interpolated by Python f-strings. -/
def natToStr (n : Nat) : Str := (toString n).codes

/-- azure_fabric.py lines 82-83: lowercase the desired name (falling back to
the word storage when it is empty) and keep only its alphanumerics. -/
def lowerAlnumStage (desired : Str) : Str :=
  ((if desired = [] then "storage".codes else desired).map lowerChar).filter isPyAlnum

/-- azure_fabric.py lines 84-85: pad a too-short name with stx and keep the
first 3 characters. -/
def padStage (s : Str) : Str :=
  if s.length < 3 then (s ++ "stx".codes).take 3 else s

/-- azure_fabric.py lines 86-87: truncate a too-long name to 24
characters. -/
def truncStage (s : Str) : Str :=
  if s.length > 24 then s.take 24 else s

/-- azure_fabric.py lines 90-92: prepend st when the first character is not
alphabetic, truncating to 24 again.  The empty branch is unreachable after
padding (Python would raise an IndexError there). -/
def forceAlphaLead : Str → Str
  | [] => []
  | c :: rest => if isPyAlpha c then c :: rest else ("st".codes ++ c :: rest).take 24

/-- azure_fabric.py lines 82-92: the kind-specific tightening of a desired
storage-account name, as the pipeline of its four steps in source order. -/
def storageAccountName (desired : Str) : Str :=
  forceAlphaLead (truncStage (padStage (lowerAlnumStage desired)))

/-- models.py: the open props map of a node, restricted to the entry the
verified code paths read (props.get accountName in the validator and in the
storage creator). -/
structure Props where
  accountName : Option Str := none
  deriving DecidableEq

/-- models.py Node: id, kind, optional display name, props. -/
structure Node where
  id : Str
  kind : Str
  name : Option Str := none
  props : Props := {}
  deriving DecidableEq

/-- models.py Edge: endpoints by node id and an intent defaulting to
notify. -/
structure Edge where
  fromId : Str
  toId : Str
  intent : Str := "notify".codes
  deriving DecidableEq

/-- models.py IR: project, env, optional location and region, nodes and
edges in input order. -/
structure IR where
  project : Str
  env : Str
  location : Option Str := none
  region : Option Str := none
  nodes : List Node := []
  edges : List Edge := []
  deriving DecidableEq

/-- One entry of an accumulated output or export dictionary: the generated
key together with the id of the node whose resources the (deferred) value
comes from. -/
structure OutEntry where
  key : Str
  src : Str
  deriving DecidableEq

/-- The compiler-side state of AzureFabric (azure_fabric.py lines 22-49):
node_index maps node ids to the kind recorded for them, outputs is the
_outputs dictionary, bindings lists the event-grid subscription resources
declared by structural edge bindings, exports logs the pulumi.export calls
made during edge resolution, and diagnostics logs the pulumi.log.warn
calls. -/
structure FabricState where
  nodeIndex : List (Str × Str) := []
  outputs : List OutEntry := []
  bindings : List Str := []
  exports : List OutEntry := []
  diagnostics : List Str := []
  deriving DecidableEq

/-- Python dict assignment d[k] = v on an association list: replace the
value in place when the key is present, append otherwise. -/
def dictSet (d : List (Str × Str)) (k v : Str) : List (Str × Str) :=
  if d.any (fun p => p.1 == k) then d.map (fun p => if p.1 == k then (k, v) else p)
  else d ++ [(k, v)]

/-- Python dict lookup d.get(k). -/
def dictGet (d : List (Str × Str)) (k : Str) : Option Str :=
  (d.find? (fun p => p.1 == k)).map (fun p => p.2)

/-- Python dict assignment on the outputs dictionary. -/
def outSet (d : List OutEntry) (e : OutEntry) : List OutEntry :=
  if d.any (fun x => x.key == e.key) then d.map (fun x => if x.key == e.key then e else x)
  else d ++ [e]

/-- A sequence of dict assignments on the outputs dictionary. -/
def outSetMany (d : List OutEntry) (es : List OutEntry) : List OutEntry :=
  es.foldl outSet d

/-- azure_fabric.py lines 34-46: the keys of the service registry, in
insertion order. -/
def supportedKinds : List Str :=
  ["azure.storage".codes, "azure.servicebus".codes, "azure.containerapp".codes,
   "azure.vm".codes, "azure.functionapp".codes, "azure.sql".codes,
   "azure.cosmosdb".codes, "azure.apimanagement".codes, "azure.keyvault".codes,
   "azure.appinsights".codes, "azure.vnet".codes]

/-- The key prefix each creator uses in its output f-strings (storage- for
azure.storage, servicebus- for azure.servicebus, and so on); empty for an
unregistered kind. -/
def kindTag (k : Str) : Str :=
  if k == "azure.storage".codes then "storage".codes
  else if k == "azure.servicebus".codes then "servicebus".codes
  else if k == "azure.containerapp".codes then "containerapp".codes
  else if k == "azure.vm".codes then "vm".codes
  else if k == "azure.functionapp".codes then "functionapp".codes
  else if k == "azure.sql".codes then "sql".codes
  else if k == "azure.cosmosdb".codes then "cosmosdb".codes
  else if k == "azure.apimanagement".codes then "apimanagement".codes
  else if k == "azure.keyvault".codes then "keyvault".codes
  else if k == "azure.appinsights".codes then "appinsights".codes
  else if k == "azure.vnet".codes then "vnet".codes
  else []

/-- The attribute suffixes of the output keys each creator writes, in
program order (azure_fabric.py lines 144-145, 186-187, 245, 330-331,
402-403, 447-449, 522-523, 557-558, 585, 605-607, 641-642); empty for an
unregistered kind. -/
def kindAttrs (k : Str) : List Str :=
  if k == "azure.storage".codes then ["accountName".codes, "conn".codes]
  else if k == "azure.servicebus".codes then ["queueName".codes, "conn".codes]
  else if k == "azure.containerapp".codes then ["fqdn".codes]
  else if k == "azure.vm".codes then ["publicIp".codes, "adminUsername".codes]
  else if k == "azure.functionapp".codes then ["url".codes, "name".codes]
  else if k == "azure.sql".codes then
    ["serverName".codes, "databaseName".codes, "connectionString".codes]
  else if k == "azure.cosmosdb".codes then ["endpoint".codes, "primaryKey".codes]
  else if k == "azure.apimanagement".codes then ["gatewayUrl".codes, "portalUrl".codes]
  else if k == "azure.keyvault".codes then ["uri".codes]
  else if k == "azure.appinsights".codes then
    ["instrumentationKey".codes, "connectionString".codes, "appId".codes]
  else if k == "azure.vnet".codes then ["id".codes, "addressSpace".codes]
  else []

/-- The logical name a creator derives for a node: safe_name of the display
name (falling back to the id), truncated to 20 characters by the storage
creator (azure_fabric.py line 75) and to 40 by every other creator. -/
def logicalName (n : Node) : Str :=
  if n.kind == "azure.storage".codes then (safe_name (pyOr n.name n.id)).take 20
  else (safe_name (pyOr n.name n.id)).take 40

/-- The shape tag-hyphen-logical-hyphen-attribute of every generated output
key. -/
def mkKey (tag logical attr : Str) : Str :=
  tag ++ hyphen :: (logical ++ hyphen :: attr)

/-- The output keys a creator contributes for one node. -/
def nodeOutputKeys (n : Node) : List Str :=
  (kindAttrs n.kind).map (mkKey (kindTag n.kind) (logicalName n))

/-- The output entries a creator contributes for one node, each tagged with
the contributing node id. -/
def nodeOutputEntries (n : Node) : List OutEntry :=
  (nodeOutputKeys n).map (fun k => ⟨k, n.id⟩)

/-- The state effect of running the creator registered for a node: record
the node id and kind in node_index and assign the node output entries into
the _outputs dictionary, in program order. -/
def createNode (s : FabricState) (n : Node) : FabricState :=
  { s with nodeIndex := dictSet s.nodeIndex n.id n.kind,
           outputs := outSetMany s.outputs (nodeOutputEntries n) }

/-- Comma-separated joining, as str.join in Python. -/
def joinSep (sep : Str) : List Str → Str
  | [] => []
  | [x] => x
  | x :: y :: ys => x ++ sep ++ joinSep sep (y :: ys)

/-- azure_fabric.py lines 62-66: the message of the ValueError raised for an
unregistered kind, enumerating every registry key. -/
def unsupportedMsg (k : Str) : Str :=
  "Unsupported kind: ".codes ++ k ++ ". Supported kinds: ".codes ++
    joinSep ", ".codes supportedKinds

/-- azure_fabric.py lines 56-66: realize nodes in input order, failing fast
on the first node whose kind is not a registry key. -/
def processNodes : FabricState → List Node → Except Str FabricState
  | s, [] => .ok s
  | s, n :: rest =>
    if supportedKinds.contains n.kind then processNodes (createNode s n) rest
    else .error (unsupportedMsg n.kind)

/-- The two forms of connector action found in the chain of _connect: a
structural event-grid subscription, or a list of descriptive exports whose
values are read from the source record (fromSrc) or, in the vm-as-source
branches, from the destination record (fromDst).  Each action carries the
suffixes of the bind- keys it exports, in program order. -/
inductive PairAct
  | structural
  | fromSrc (suffixes : List Str)
  | fromDst (suffixes : List Str)
  deriving DecidableEq

def kStorage : Str := "azure.storage".codes
def kServicebus : Str := "azure.servicebus".codes
def kContainerapp : Str := "azure.containerapp".codes
def kVm : Str := "azure.vm".codes
def kFunctionapp : Str := "azure.functionapp".codes
def kSql : Str := "azure.sql".codes
def kCosmosdb : Str := "azure.cosmosdb".codes
def kApimanagement : Str := "azure.apimanagement".codes
def kKeyvault : Str := "azure.keyvault".codes
def kAppinsights : Str := "azure.appinsights".codes
def kVnet : Str := "azure.vnet".codes

def sfxQueue : List Str := ["queue".codes, "conn".codes]
def sfxKeyvault : List Str := ["keyvault-uri".codes, "keyvault-name".codes]
def sfxCosmos3 : List Str :=
  ["cosmos-endpoint".codes, "cosmos-database".codes, "cosmos-container".codes]
def sfxCosmos2 : List Str := ["cosmos-endpoint".codes, "cosmos-database".codes]
def sfxSql : List Str := ["sql-server".codes, "sql-database".codes]
def sfxStorage : List Str := ["storage-conn".codes, "storage-account".codes]
def sfxAppins : List Str := ["appinsights-key".codes, "appinsights-conn".codes]
def sfxApim : List Str := ["apim-gateway".codes, "apim-portal".codes]
def sfxVnet : List Str := ["vnet-id".codes, "vnet-name".codes]
def sfxFunc : List Str := ["functionapp-url".codes, "functionapp-name".codes]
def sfxCapp : List Str := ["containerapp-fqdn".codes, "containerapp-name".codes]

/-- azure_fabric.py lines 662-1090: the ordered kind-pair dispatch chain of
_connect, branch by branch in source order; none encodes falling through to
the final else. -/
def pairAct (sk dk : Str) : Option PairAct :=
  if sk == kStorage && dk == kServicebus then some .structural
  else if sk == kServicebus && dk == kContainerapp then some (.fromSrc sfxQueue)
  else if sk == kServicebus && dk == kFunctionapp then some (.fromSrc sfxQueue)
  else if sk == kKeyvault && dk == kFunctionapp then some (.fromSrc sfxKeyvault)
  else if sk == kKeyvault && dk == kContainerapp then some (.fromSrc sfxKeyvault)
  else if sk == kCosmosdb && dk == kFunctionapp then some (.fromSrc sfxCosmos3)
  else if sk == kCosmosdb && dk == kContainerapp then some (.fromSrc sfxCosmos3)
  else if sk == kSql && dk == kFunctionapp then some (.fromSrc sfxSql)
  else if sk == kSql && dk == kContainerapp then some (.fromSrc sfxSql)
  else if sk == kStorage && dk == kFunctionapp then some (.fromSrc sfxStorage)
  else if sk == kStorage && dk == kContainerapp then some (.fromSrc sfxStorage)
  else if sk == kAppinsights && dk == kFunctionapp then some (.fromSrc sfxAppins)
  else if sk == kAppinsights && dk == kContainerapp then some (.fromSrc sfxAppins)
  else if sk == kApimanagement && dk == kFunctionapp then some (.fromSrc sfxApim)
  else if sk == kApimanagement && dk == kContainerapp then some (.fromSrc sfxApim)
  else if sk == kStorage && dk == kSql then some (.fromSrc sfxStorage)
  else if sk == kStorage && dk == kCosmosdb then some (.fromSrc sfxStorage)
  else if sk == kStorage && dk == kVm then some (.fromSrc sfxStorage)
  else if sk == kStorage && dk == kApimanagement then some (.fromSrc sfxStorage)
  else if sk == kServicebus && dk == kSql then some (.fromSrc sfxQueue)
  else if sk == kServicebus && dk == kCosmosdb then some (.fromSrc sfxQueue)
  else if sk == kServicebus && dk == kVm then some (.fromSrc sfxQueue)
  else if sk == kServicebus && dk == kApimanagement then some (.fromSrc sfxQueue)
  else if sk == kSql && dk == kStorage then some (.fromSrc sfxSql)
  else if sk == kSql && dk == kServicebus then some (.fromSrc sfxSql)
  else if sk == kCosmosdb && dk == kStorage then some (.fromSrc sfxCosmos2)
  else if sk == kCosmosdb && dk == kServicebus then some (.fromSrc sfxCosmos2)
  else if sk == kKeyvault && dk == kSql then some (.fromSrc sfxKeyvault)
  else if sk == kKeyvault && dk == kCosmosdb then some (.fromSrc sfxKeyvault)
  else if sk == kKeyvault && dk == kVm then some (.fromSrc sfxKeyvault)
  else if sk == kKeyvault && dk == kApimanagement then some (.fromSrc sfxKeyvault)
  else if sk == kKeyvault && dk == kStorage then some (.fromSrc sfxKeyvault)
  else if sk == kKeyvault && dk == kServicebus then some (.fromSrc sfxKeyvault)
  else if sk == kAppinsights && dk == kSql then some (.fromSrc sfxAppins)
  else if sk == kAppinsights && dk == kCosmosdb then some (.fromSrc sfxAppins)
  else if sk == kAppinsights && dk == kVm then some (.fromSrc sfxAppins)
  else if sk == kAppinsights && dk == kApimanagement then some (.fromSrc sfxAppins)
  else if sk == kAppinsights && dk == kStorage then some (.fromSrc sfxAppins)
  else if sk == kAppinsights && dk == kServicebus then some (.fromSrc sfxAppins)
  else if sk == kApimanagement && dk == kSql then some (.fromSrc sfxApim)
  else if sk == kApimanagement && dk == kCosmosdb then some (.fromSrc sfxApim)
  else if sk == kApimanagement && dk == kVm then some (.fromSrc sfxApim)
  else if sk == kApimanagement && dk == kStorage then some (.fromSrc sfxApim)
  else if sk == kApimanagement && dk == kServicebus then some (.fromSrc sfxApim)
  else if sk == kVnet && dk == kVm then some (.fromSrc sfxVnet)
  else if sk == kVnet && dk == kContainerapp then some (.fromSrc sfxVnet)
  else if sk == kVnet && dk == kFunctionapp then some (.fromSrc sfxVnet)
  else if sk == kVnet && dk == kSql then some (.fromSrc sfxVnet)
  else if sk == kVnet && dk == kCosmosdb then some (.fromSrc sfxVnet)
  else if sk == kVnet && dk == kStorage then some (.fromSrc sfxVnet)
  else if sk == kVnet && dk == kServicebus then some (.fromSrc sfxVnet)
  else if sk == kVnet && dk == kApimanagement then some (.fromSrc sfxVnet)
  else if sk == kVnet && dk == kKeyvault then some (.fromSrc sfxVnet)
  else if sk == kVnet && dk == kAppinsights then some (.fromSrc sfxVnet)
  else if sk == kFunctionapp && dk == kContainerapp then some (.fromSrc sfxFunc)
  else if sk == kContainerapp && dk == kFunctionapp then some (.fromSrc sfxCapp)
  else if sk == kVm && dk == kStorage then some (.fromDst sfxStorage)
  else if sk == kVm && dk == kServicebus then some (.fromDst sfxQueue)
  else if sk == kVm && dk == kContainerapp then some (.fromDst sfxCapp)
  else if sk == kVm && dk == kFunctionapp then some (.fromDst sfxFunc)
  else if sk == kVm && dk == kSql then some (.fromDst sfxSql)
  else if sk == kVm && dk == kCosmosdb then some (.fromDst sfxCosmos3)
  else if sk == kVm && dk == kKeyvault then some (.fromDst sfxKeyvault)
  else if sk == kVm && dk == kAppinsights then some (.fromDst sfxAppins)
  else if sk == kVm && dk == kApimanagement then some (.fromDst sfxApim)
  else if sk == kVm && dk == kVnet then some (.fromDst sfxVnet)
  else none

/-- Rendering of an optional kind inside the final warning of _connect; an
absent record prints as the Python None. -/
def optKindStr (o : Option Str) : Str :=
  match o with
  | some s => s
  | none => "None".codes

/-- azure_fabric.py lines 1091-1092: the fallback warning of _connect. -/
def noConnectorMsg (a b : Option Str) : Str :=
  "No connector for ".codes ++ optKindStr a ++ " -> ".codes ++ optKindStr b ++
    "; skipping".codes

/-- The action taken for an edge once both endpoint kinds are known: an
event-grid subscription for the structural pair, the bind- exports for an
export pair (values drawn from the source record, or from the destination
record in the vm-as-source branches), and the fallback warning when the
chain has no branch for the pair. -/
def connectPair (s : FabricState) (e : Edge) (sk dk : Str) : FabricState :=
  match pairAct sk dk with
  | some .structural =>
    { s with bindings := s.bindings ++
        ("egsub-".codes ++ safe_name e.fromId ++ "-to-".codes ++ safe_name e.toId) :: [] }
  | some (.fromSrc sfx) =>
    { s with exports := s.exports ++
        sfx.map (fun a => ⟨"bind-".codes ++ safe_name e.toId ++ hyphen :: a, e.fromId⟩) }
  | some (.fromDst sfx) =>
    { s with exports := s.exports ++
        sfx.map (fun a => ⟨"bind-".codes ++ safe_name e.toId ++ hyphen :: a, e.toId⟩) }
  | none =>
    { s with diagnostics := s.diagnostics ++ [noConnectorMsg (some sk) (some dk)] }

/-- azure_fabric.py lines 645-1092: resolve one edge.  Empty endpoints and
intents other than notify are warn-and-skip; both endpoint kinds are looked
up in node_index and dispatched through the pair chain; records absent from
the index fall through to the fallback warning. -/
def connect (s : FabricState) (e : Edge) : FabricState :=
  if e.fromId == [] || e.toId == [] then
    { s with diagnostics := s.diagnostics ++ ["Edge missing endpoints; skipping".codes] }
  else if e.intent != "notify".codes then
    { s with diagnostics := s.diagnostics ++
        ("Unsupported intent: ".codes ++ e.intent ++ "; skipping".codes) :: [] }
  else
    match dictGet s.nodeIndex e.fromId, dictGet s.nodeIndex e.toId with
    | some sk, some dk => connectPair s e sk dk
    | osk, odk =>
      { s with diagnostics := s.diagnostics ++ [noConnectorMsg osk odk] }

/-- azure_fabric.py lines 51-69: apply_ir realizes all nodes in input order
and only then resolves all edges in input order. -/
def applyIR (ir : IR) : Except Str FabricState :=
  (processNodes {} ir.nodes).map (fun s => ir.edges.foldl connect s)

/-- The kind of the first node, in input order, whose kind is not a registry
key. -/
def firstUnsupported : List Node → Option Str
  | [] => none
  | n :: rest =>
    if supportedKinds.contains n.kind then firstUnsupported rest else some n.kind

/-- models.py AzureCreds. -/
structure Creds where
  clientId : Str
  clientSecret : Str
  subscriptionId : Str
  tenantId : Str
  deriving DecidableEq

/-- The outcome of the direct resource-group deletion path
(pulumi_engine.py lines 206-251), abstracted to the fields destroy reads. -/
structure DirectDeleteResult where
  deleted : Bool
  message : Str
  deriving DecidableEq

/-- The fields of the dictionary destroy returns that the verified
properties read. -/
structure DestroyResult where
  destroyed : Bool
  message : Str
  error : Option Str := none
  resourcesDeleted : Option Nat := none
  directAttempted : Bool := false
  deriving DecidableEq

namespace PulumiEngine

/-- pulumi_engine.py lines 253-329: PulumiEngine.destroy.  The two external
collaborator calls are passed in as behaviours: stackLookup models _stack
(which raises when the stack record for project-env is absent, the case the
code comments call stack does not exist), destroyCall models stack.destroy
returning the deleted-resource count or failing, and directDelete models
_delete_resource_group_direct.  Branching follows the source: a failed
lookup returns the not-found message (attempting direct deletion first when
credentials are present); a successful destroy reports the deleted count; a
failed destroy falls back to direct deletion when credentials are present
and otherwise reports the may-still-exist message. -/
def destroy (project envName : Str) (creds : Option Creds)
    (stackLookup : Except Str Unit) (destroyCall : Except Str Nat)
    (directDelete : Creds → DirectDeleteResult) : DestroyResult :=
  match stackLookup with
  | .error e =>
    match creds with
    | some c =>
      { destroyed := false, message := (directDelete c).message,
        directAttempted := true }
    | none =>
      { destroyed := false,
        message := "Stack \x27".codes ++ project ++ "-".codes ++ envName ++
          "\x27 not found and no credentials provided for direct deletion.".codes,
        error := some e }
  | .ok _ =>
    match destroyCall with
    | .ok n =>
      { destroyed := true, resourcesDeleted := some n,
        message := "Destroyed ".codes ++ natToStr n ++
          " resources via Pulumi. Deletion may take 5-10 minutes to complete in Azure. Refresh Azure Portal to see updates.".codes }
    | .error e2 =>
      match creds with
      | some c =>
        { destroyed := (directDelete c).deleted, message := (directDelete c).message,
          error := some e2, directAttempted := true }
      | none =>
        { destroyed := false, error := some e2,
          message := "Destroy failed. Some resources may still exist. Provide credentials to attempt direct deletion.".codes }

end PulumiEngine

/-- Whether the first list is an initial segment of the second. -/
def isLeadOf : Str → Str → Bool
  | [], _ => true
  | _ :: _, [] => false
  | a :: xs, b :: ys => a == b && isLeadOf xs ys

/-- Whether the first list occurs contiguously inside the second (the
substring relation on modelled strings). -/
def hasSeg (needle : Str) : Str → Bool
  | [] => needle == []
  | c :: rest => isLeadOf needle (c :: rest) || hasSeg needle rest

/-- The collision scope of the output keys a node contributes: the kind tag
together with the truncated sanitized logical name. -/
def keyScope (n : Node) : Str × Str := (kindTag n.kind, logicalName n)

/-- Two azure.storage nodes with distinct ids that sanitize to the same
logical name a-b. -/
def collideIR : IR :=
  { project := "p".codes, env := "d".codes,
    nodes := [{ id := "a_b".codes, kind := kStorage },
              { id := "a.b".codes, kind := kStorage }] }

/-- The scenario IR of the claim, with the vendor-neutral kind tags it
spells out. -/
def scenarioIR : IR :=
  { project := "p".codes, env := "d".codes,
    nodes := [{ id := "s1".codes, kind := "object-storage".codes },
              { id := "q1".codes, kind := "message-queue".codes }],
    edges := [{ fromId := "s1".codes, toId := "q1".codes, intent := "notify".codes }] }

/-- The scenario IR with the kind tags actually registered by the service
registry. -/
def scenarioRegisteredIR : IR :=
  { project := "p".codes, env := "d".codes,
    nodes := [{ id := "s1".codes, kind := kStorage },
              { id := "q1".codes, kind := kServicebus }],
    edges := [{ fromId := "s1".codes, toId := "q1".codes, intent := "notify".codes }] }

/-- An IR with a duplicate node id and a dangling edge destination: a
structurally defective graph whose kinds are all registered. -/
def defectiveIR : IR :=
  { project := "p".codes, env := "d".codes,
    nodes := [{ id := "x".codes, kind := kStorage, name := some "okstorage1".codes },
              { id := "x".codes, kind := kStorage, name := some "okstorage1".codes }],
    edges := [{ fromId := "x".codes, toId := "ghost".codes, intent := "notify".codes }] }

/-- An IR with unique ids and well-formed edges containing an unregistered
kind next to a storage node whose account name is illegal. -/
def mixedBadNameIR : IR :=
  { project := "p".codes, env := "d".codes,
    nodes := [{ id := "n1".codes, kind := "custom.kind".codes },
              { id := "n2".codes, kind := kStorage, name := some "BAD_NAME!".codes }],
    edges := [{ fromId := "n1".codes, toId := "n2".codes, intent := "notify".codes }] }

/-- An IR with unique ids, well-formed edges, and only an unregistered
kind. -/
def unregisteredOnlyIR : IR :=
  { project := "p".codes, env := "d".codes,
    nodes := [{ id := "n1".codes, kind := "custom.kind".codes },
              { id := "n2".codes, kind := "another.kind".codes }],
    edges := [{ fromId := "n1".codes, toId := "n2".codes, intent := "notify".codes }] }

/-- An IR whose two nodes share the id a. -/
def dupIdsIR : IR :=
  { project := "p".codes, env := "d".codes,
    nodes := [{ id := "a".codes, kind := kVnet }, { id := "a".codes, kind := kVnet }] }

/-- An IR whose single node has the unregistered kind of the claim
scenario. -/
def unknownKindIR : IR :=
  { project := "p".codes, env := "d".codes,
    nodes := [{ id := "x".codes, kind := "not-a-real-kind".codes }] }

/-- validator.py lines 14-17: storage account names that are likely taken. -/
def commonStorageNames : List Str :=
  ["test".codes, "storage".codes, "mystorage".codes, "teststorage".codes,
   "stor".codes, "data".codes, "files".codes, "blob".codes, "container".codes,
   "backup".codes, "archive".codes]

/-- validator.py line 50: the storage account name checked for a node,
props.get accountName falling back to the display name falling back to the
id. -/
def storageNameOf (n : Node) : Str := pyOr n.props.accountName (pyOr n.name n.id)

/-- The regex [a-z0-9]+ anchored at both ends (validator.py line 76). -/
def isLowerDigitStr (s : Str) : Bool :=
  !(s == []) && s.all (fun c => (97 ≤ c && c ≤ 122) || (48 ≤ c && c ≤ 57))

/-- The regex [a-zA-Z0-9-]\x7b3,24\x7d anchored at both ends (validator.py
line 110). -/
def isKeyvaultLegal (s : Str) : Bool :=
  3 ≤ s.length && s.length ≤ 24 && s.all isSafeChar

/-- validator.py lines 42-123: the errors the per-node checks append for one
node, in program order.  Only the azure.storage and azure.keyvault branches
can append errors; every other kind, registered or not, contributes none. -/
def nodeErrors (n : Node) : List Str :=
  if n.kind == kStorage then
    let sn := storageNameOf n
    let low := sn.map lowerChar
    (if !(isLowerDigitStr low) then
      ["Storage account \x27".codes ++ sn ++ "\x27 (node: ".codes ++ n.id ++
        ") contains invalid characters. Storage account names must be 3-24 characters, lowercase letters and numbers only.".codes]
     else []) ++
    (if low.length > 24 then
      ["Storage account \x27".codes ++ sn ++ "\x27 (node: ".codes ++ n.id ++
        ") is too long (".codes ++ natToStr low.length ++
        " chars). Maximum length is 24 characters.".codes]
     else []) ++
    (if low.length < 3 then
      ["Storage account \x27".codes ++ sn ++ "\x27 (node: ".codes ++ n.id ++
        ") is too short (".codes ++ natToStr low.length ++
        " chars). Minimum length is 3 characters.".codes]
     else [])
  else if n.kind == kKeyvault then
    let kv := (pyOr n.name n.id).map lowerChar
    if !(isKeyvaultLegal kv) then
      ["Key Vault \x27".codes ++ pyOr n.name n.id ++ "\x27 (node: ".codes ++ n.id ++
        ") has invalid characters. Key Vault names must be 3-24 characters, alphanumeric and hyphens only (no underscores).".codes]
    else []
  else []

/-- validator.py lines 42-123: the warnings the per-node checks append for
one node, in program order. -/
def nodeWarnings (location : Str) (n : Node) : List Str :=
  if n.kind == kStorage then
    let sn := storageNameOf n
    let low := sn.map lowerChar
    (if low.length < 8 then
      ["Storage account \x27".codes ++ sn ++ "\x27 (node: ".codes ++ n.id ++
        ") is very short. Short names are more likely to be taken globally. Consider using a longer, more unique name.".codes]
     else []) ++
    (if commonStorageNames.contains low then
      ["Storage account \x27".codes ++ sn ++ "\x27 (node: ".codes ++ n.id ++
        ") uses a very common name. This name is likely already taken globally. Storage account names must be globally unique across all Azure.".codes]
     else [])
  else if n.kind == kContainerapp then
    ["Container App (node: ".codes ++ n.id ++
      ") requires a Container App Environment. Azure subscriptions typically allow only 1 Container App Environment per region. If you already have one in \x27".codes ++
      location ++ "\x27, this deployment will fail.".codes]
  else if n.kind == kFunctionapp then
    if ((pyOr n.name n.id).map lowerChar).length > 60 then
      ["Function App \x27".codes ++ pyOr n.name n.id ++ "\x27 (node: ".codes ++ n.id ++
        ") name is very long. Function App names should be under 60 characters.".codes]
    else []
  else []

/-- validator.py lines 42-123: the suggestions the per-node checks append
for one node, in program order. -/
def nodeSuggestions (project env location : Str) (n : Node) : List Str :=
  if n.kind == kStorage then
    let sn := storageNameOf n
    let low := sn.map lowerChar
    (if low.length < 8 then
      ["Try: \x27".codes ++ sn ++ project ++ env ++ "\x27 or add random suffix".codes]
     else []) ++
    (if commonStorageNames.contains low then
      ["Use a more unique name like \x27".codes ++ sn ++ project ++ env ++
        "2025\x27 or add random characters".codes]
     else [])
  else if n.kind == kContainerapp then
    ["Option 1: Remove Container App from payload if limit reached\nOption 2: Use a different region\nOption 3: Delete existing Container App Environment in \x27".codes ++
      location ++ "\x27".codes]
  else []

/-- validator.py lines 125-132: the duplicate-id error, listing the
de-duplicated ids that occur more than once (the Python code renders a set,
whose iteration order is unspecified; the model de-duplicates keeping last
occurrences). -/
def dupIds (ids : List Str) : List Str :=
  ids.filter (fun i => 1 < ids.count i)

def dupErrors (ids : List Str) : List Str :=
  if dupIds ids == [] then []
  else
    ["Duplicate node IDs found: ".codes ++ joinSep ", ".codes (dupIds ids).dedup ++
      ". Each node must have a unique ID.".codes]

/-- validator.py lines 134-151: edge-endpoint errors for one edge: a truthy
endpoint id absent from the node-id set is an error enumerating the valid
ids (the destination check reads only the plain to key). -/
def edgeErrors (ids : List Str) (e : Edge) : List Str :=
  (if !(e.fromId == []) && !(ids.contains e.fromId) then
    ["Edge references unknown source node: \x27".codes ++ e.fromId ++
      "\x27. Available nodes: ".codes ++ joinSep ", ".codes ids]
   else []) ++
  (if !(e.toId == []) && !(ids.contains e.toId) then
    ["Edge references unknown destination node: \x27".codes ++ e.toId ++
      "\x27. Available nodes: ".codes ++ joinSep ", ".codes ids]
   else [])

/-- validator.py lines 153-159: the region-policy warning. -/
def regionWarnings (location : Str) : List Str :=
  if ["westeurope".codes].contains (location.map lowerChar) then
    ["Region \x27".codes ++ location ++
      "\x27 may be blocked by your Azure subscription policy. Consider using \x27eastus\x27, \x27westus2\x27, \x27southeastasia\x27, or \x27centralus\x27 instead.".codes]
  else []

/-- The validation report (validator.py lines 161-166). -/
structure Report where
  valid : Bool
  errors : List Str
  warnings : List Str
  suggestions : List Str
  deriving DecidableEq

namespace PayloadValidator

/-- validator.py lines 19-166: validate an IR and return the report; valid
is defined as the emptiness of the error list. -/
def validate (ir : IR) : Report :=
  let location := pyOr ir.location (pyOr ir.region "westeurope".codes)
  let ids := ir.nodes.map Node.id
  let errors :=
    ir.nodes.flatMap nodeErrors ++ dupErrors ids ++ ir.edges.flatMap (edgeErrors ids)
  let warnings :=
    ir.nodes.flatMap (nodeWarnings location) ++ regionWarnings location
  let suggestions := ir.nodes.flatMap (nodeSuggestions ir.project ir.env location)
  { valid := errors.isEmpty, errors := errors, warnings := warnings,
    suggestions := suggestions }

end PayloadValidator

/-- pulumi_engine.py lines 92-116: the preview path runs the validator and
returns its report alongside the engine dry-run; this is the only call site
of PayloadValidator.validate in the engine. -/
def previewValidation (ir : IR) : Report := PayloadValidator.validate ir

/-- Models the IR-level processing of PulumiEngine.up (pulumi_engine.py
lines 118-155): up builds the Pulumi program (program_builder.py lines
7-19), whose body runs AzureFabric.apply_ir on the IR, and performs no
payload validation — PayloadValidator.validate is invoked only on the
preview path.  Provisioning-engine convergence and its error classification
are external to the compiler and are not modelled. -/
def upCompile (ir : IR) : Except Str FabricState := applyIR ir

/-- isLeadOf decides the initial-segment relation. -/
theorem isLeadOf_iff (n h : Str) : isLeadOf n h = true ↔ ∃ t, h = n ++ t := by
  induction n generalizing h with
  | nil => simp [isLeadOf]
  | cons a xs ih =>
    cases h with
    | nil => simp [isLeadOf]
    | cons b ys =>
      simp only [isLeadOf, Bool.and_eq_true, beq_iff_eq, ih, List.cons_append]
      constructor
      · rintro ⟨rfl, t, rfl⟩
        exact ⟨t, rfl⟩
      · rintro ⟨t, ht⟩
        injection ht with h1 h2
        exact ⟨h1.symm, t, h2⟩

/-- hasSeg decides the contiguous-substring relation. -/
theorem hasSeg_iff (n h : Str) : hasSeg n h = true ↔ ∃ u v, h = u ++ n ++ v := by
  induction h with
  | nil =>
    simp only [hasSeg, beq_iff_eq]
    constructor
    · rintro rfl
      exact ⟨[], [], rfl⟩
    · rintro ⟨u, v, huv⟩
      rcases List.append_eq_nil.mp huv.symm with ⟨h1, h2⟩
      rcases List.append_eq_nil.mp h1 with ⟨h3, h4⟩
      exact h4
  | cons c rest ih =>
    simp only [hasSeg, Bool.or_eq_true, isLeadOf_iff, ih]
    constructor
    · rintro (⟨t, ht⟩ | ⟨u, v, rfl⟩)
      · exact ⟨[], t, by simp [ht]⟩
      · exact ⟨c :: u, v, by simp⟩
    · rintro ⟨u, v, h2⟩
      cases u with
      | nil => exact Or.inl ⟨v, by simpa using h2⟩
      | cons d us =>
        injection h2 with h3 h4
        exact Or.inr ⟨us, v, h4⟩

/-- A substring occurrence survives prepending. -/
theorem hasSeg_append_left (n u h : Str) (hh : hasSeg n h = true) :
    hasSeg n (u ++ h) = true := by
  obtain ⟨x, y, rfl⟩ := (hasSeg_iff n h).mp hh
  exact (hasSeg_iff n _).mpr ⟨u ++ x, y, by simp⟩

/-- A substring occurrence survives appending. -/
theorem hasSeg_append_right (n h v : Str) (hh : hasSeg n h = true) :
    hasSeg n (h ++ v) = true := by
  obtain ⟨x, y, rfl⟩ := (hasSeg_iff n h).mp hh
  exact (hasSeg_iff n _).mpr ⟨x, y ++ v, by simp⟩

/-- Every joined part occurs inside the joined string. -/
theorem hasSeg_joinSep (sep : Str) (parts : List Str) (a : Str) (ha : a ∈ parts) :
    hasSeg a (joinSep sep parts) = true := by
  induction parts with
  | nil => cases ha
  | cons x xs ih =>
    cases xs with
    | nil =>
      rcases List.mem_singleton.mp ha with rfl
      exact (hasSeg_iff a (joinSep sep [a])).mpr ⟨[], [], by simp [joinSep]⟩
    | cons y ys =>
      rcases List.mem_cons.mp ha with rfl | hm
      · exact (hasSeg_iff a _).mpr ⟨[], sep ++ joinSep sep (y :: ys), by simp [joinSep]⟩
      · show hasSeg a (x ++ sep ++ joinSep sep (y :: ys)) = true
        rw [List.append_assoc]
        exact hasSeg_append_left a x _ (hasSeg_append_left a sep _ (ih hm))

/-- The head surviving dropWhile falsifies the predicate. -/
theorem head_dropWhile_false (p : Nat → Bool) (l : Str) (c : Nat)
    (h : (l.dropWhile p).head? = some c) : p c = false := by
  induction l with
  | nil => simp [List.dropWhile] at h
  | cons a t ih =>
    simp only [List.dropWhile_cons] at h
    cases hp : p a with
    | true =>
      rw [hp] at h
      exact ih (by simpa using h)
    | false =>
      rw [hp] at h
      simp only [Bool.false_eq_true, if_false, List.head?_cons, Option.some.injEq] at h
      rw [← h]
      exact hp

/-- dropWhile preserves the last element when it yields one. -/
theorem getLast_dropWhile_eq (p : Nat → Bool) (l : Str) (c : Nat)
    (h : (l.dropWhile p).getLast? = some c) : l.getLast? = some c := by
  induction l with
  | nil => simp [List.dropWhile] at h
  | cons a t ih =>
    simp only [List.dropWhile_cons] at h
    cases hp : p a with
    | true =>
      rw [hp] at h
      simp only [if_pos rfl] at h
      have ht := ih h
      cases t with
      | nil => simp at ht
      | cons b t2 => rw [List.getLast?_cons_cons]; exact ht
    | false =>
      rw [hp] at h
      simpa using h

/-- C2: safe_name is a total function whose result contains only characters
of the class [A-Za-z0-9-], has length at most 63, and neither starts nor
ends with a hyphen. -/
theorem safe_name_sanitizes (s : Str) :
    (∀ c ∈ safe_name s, isSafeChar c = true) ∧
    (safe_name s).length ≤ 63 ∧
    (∀ c, (safe_name s).head? = some c → c ≠ hyphen) ∧
    (∀ c, (safe_name s).getLast? = some c → c ≠ hyphen) := by
  have hr : safe_name s =
      (((((s.map (fun c => if isSafeChar c then c else hyphen)).take 63).dropWhile
          (fun c => c == hyphen)).reverse).dropWhile (fun c => c == hyphen)).reverse := rfl
  refine ⟨?_, ?_, ?_, ?_⟩
  · intro c hc
    rw [hr, List.mem_reverse] at hc
    have hc2 := List.Sublist.mem hc (List.dropWhile_sublist _)
    rw [List.mem_reverse] at hc2
    have hc3 := List.Sublist.mem hc2 (List.dropWhile_sublist _)
    have hc4 := List.mem_of_mem_take hc3
    obtain ⟨a, _, hfa⟩ := List.mem_map.mp hc4
    by_cases hsa : isSafeChar a = true
    · rw [if_pos hsa] at hfa
      rw [← hfa]
      exact hsa
    · rw [if_neg hsa] at hfa
      rw [← hfa]
      decide
  · rw [hr, List.length_reverse]
    have l1 := (List.dropWhile_sublist (l :=
      ((s.map (fun c => if isSafeChar c then c else hyphen)).take 63).dropWhile
        (fun c => c == hyphen) |>.reverse) (fun c => c == hyphen)).length_le
    have l2 := (List.dropWhile_sublist (l :=
      (s.map (fun c => if isSafeChar c then c else hyphen)).take 63)
      (fun c => c == hyphen)).length_le
    have l3 : ((s.map (fun c => if isSafeChar c then c else hyphen)).take 63).length ≤ 63 := by
      rw [List.length_take]
      exact min_le_left _ _
    rw [List.length_reverse] at l1
    omega
  · intro c hc
    rw [hr, List.head?_reverse] at hc
    have h2 := getLast_dropWhile_eq _ _ _ hc
    rw [List.getLast?_reverse] at h2
    have hb := head_dropWhile_false _ _ _ h2
    simpa using hb
  · intro c hc
    rw [hr, List.getLast?_reverse] at hc
    have hb := head_dropWhile_false _ _ _ hc
    simpa using hb

/-- C2 witness: safe_name at a concrete input with every class of character,
with the bound instantiated through the theorem. -/
theorem safe_name_sanitizes_witness :
    safe_name "--Hello world!--".codes = "Hello-world".codes ∧
    (safe_name "--Hello world!--".codes).length ≤ 63 := by
  exact ⟨by decide, (safe_name_sanitizes ("--Hello world!--".codes)).2.1⟩

/-- lowerChar fixes lowercase letters and digits. -/
theorem lowerChar_fixed (c : Nat) (h : (97 ≤ c ∧ c ≤ 122) ∨ (48 ≤ c ∧ c ≤ 57)) :
    lowerChar c = c := by
  unfold lowerChar
  rw [if_neg]
  simp only [Bool.and_eq_true, decide_eq_true_eq]
  omega

/-- Every character of the lowercase-alphanumeric stage is a lowercase
letter or a digit. -/
theorem lowerAlnumStage_lowClass (d : Str) :
    ∀ c ∈ lowerAlnumStage d, (97 ≤ c ∧ c ≤ 122) ∨ (48 ≤ c ∧ c ≤ 57) := by
  intro c hc
  obtain ⟨hmem, halnum⟩ := List.mem_filter.mp hc
  obtain ⟨a, _, rfl⟩ := List.mem_map.mp hmem
  revert halnum
  unfold lowerChar isPyAlnum
  split_ifs with hc2
  · intro _
    simp only [Bool.and_eq_true, decide_eq_true_eq] at hc2
    omega
  · intro h
    simp only [Bool.or_eq_true, Bool.and_eq_true, decide_eq_true_eq] at h
    simp only [Bool.and_eq_true, decide_eq_true_eq] at hc2
    omega

/-- Characters of the padded name come from the input or from stx. -/
theorem padStage_mem (s : Str) (c : Nat) (hc : c ∈ padStage s) :
    c ∈ s ∨ c ∈ "stx".codes := by
  unfold padStage at hc
  split_ifs at hc with h
  · exact List.mem_append.mp (List.mem_of_mem_take hc)
  · exact Or.inl hc

/-- The padded name has at least 3 characters. -/
theorem padStage_len (s : Str) : 3 ≤ (padStage s).length := by
  unfold padStage
  split_ifs with h
  · simp only [List.length_take, List.length_append]
    have hstx : ("stx".codes).length = 3 := by decide
    omega
  · omega

/-- Characters of the truncated name come from the input. -/
theorem truncStage_mem (s : Str) (c : Nat) (hc : c ∈ truncStage s) : c ∈ s := by
  unfold truncStage at hc
  split_ifs at hc
  · exact List.mem_of_mem_take hc
  · exact hc

/-- The truncated name keeps at least 3 characters when the input has
them. -/
theorem truncStage_len_lower (s : Str) (h : 3 ≤ s.length) :
    3 ≤ (truncStage s).length := by
  unfold truncStage
  split_ifs with h2
  · simp only [List.length_take]
    omega
  · omega

/-- The truncated name has at most 24 characters. -/
theorem truncStage_len_upper (s : Str) : (truncStage s).length ≤ 24 := by
  unfold truncStage
  split_ifs with h2
  · simp only [List.length_take]
    omega
  · omega

/-- The leading-character fix preserves the storage-account legality
invariants and guarantees an alphabetic head. -/
theorem forceAlphaLead_props (s : Str)
    (hclass : ∀ c ∈ s, (97 ≤ c ∧ c ≤ 122) ∨ (48 ≤ c ∧ c ≤ 57))
    (h3 : 3 ≤ s.length) (h24 : s.length ≤ 24) :
    3 ≤ (forceAlphaLead s).length ∧ (forceAlphaLead s).length ≤ 24 ∧
    (∀ c ∈ forceAlphaLead s, (97 ≤ c ∧ c ≤ 122) ∨ (48 ≤ c ∧ c ≤ 57)) ∧
    (∃ c rest, forceAlphaLead s = c :: rest ∧ 97 ≤ c ∧ c ≤ 122) := by
  cases s with
  | nil => simp at h3
  | cons c rest =>
    have hcc := hclass c (List.mem_cons_self c rest)
    simp only [forceAlphaLead]
    by_cases ha : isPyAlpha c = true
    · rw [if_pos ha]
      have hc97 : 97 ≤ c ∧ c ≤ 122 := by
        revert ha
        unfold isPyAlpha
        intro ha
        simp only [Bool.or_eq_true, Bool.and_eq_true, decide_eq_true_eq] at ha
        omega
      exact ⟨h3, h24, hclass, c, rest, rfl, hc97⟩
    · rw [if_neg ha]
      have hst : "st".codes = [115, 116] := by decide
      rw [hst]
      simp only [List.cons_append, List.nil_append] at *
      refine ⟨?_, ?_, ?_, ?_⟩
      · simp only [List.length_take, List.length_cons]
        simp only [List.length_cons] at h3
        omega
      · simp only [List.length_take]
        omega
      · intro x hx
        have hx2 := List.mem_of_mem_take hx
        rcases List.mem_cons.mp hx2 with rfl | hx3
        · omega
        rcases List.mem_cons.mp hx3 with rfl | hx4
        · omega
        · exact hclass x hx4
      · refine ⟨115, (116 :: c :: rest).take 23, ?_, by omega, by omega⟩
        rw [List.take_succ_cons]

/-- The tightened storage-account name is legal: lowercase alphanumeric,
between 3 and 24 characters, with an alphabetic first character. -/
theorem storageAccountName_props (d : Str) :
    3 ≤ (storageAccountName d).length ∧ (storageAccountName d).length ≤ 24 ∧
    (∀ c ∈ storageAccountName d, (97 ≤ c ∧ c ≤ 122) ∨ (48 ≤ c ∧ c ≤ 57)) ∧
    (∃ c rest, storageAccountName d = c :: rest ∧ 97 ≤ c ∧ c ≤ 122) := by
  apply forceAlphaLead_props
  · intro c hc
    have hc2 := truncStage_mem _ _ hc
    rcases padStage_mem _ _ hc2 with h1 | h2
    · exact lowerAlnumStage_lowClass d c h1
    · have hstx : ∀ x ∈ "stx".codes, (97 ≤ x ∧ x ≤ 122) ∨ (48 ≤ x ∧ x ≤ 57) := by decide
      exact hstx c h2
  · exact truncStage_len_lower _ (padStage_len _)
  · exact truncStage_len_upper _

/-- The tightening stage fixes its own output. -/
theorem storageAccountName_idem (d : Str) :
    storageAccountName (storageAccountName d) = storageAccountName d := by
  obtain ⟨h3, h24, hclass, c, rest, heq, hc1, hc2⟩ := storageAccountName_props d
  have hyne : storageAccountName d ≠ [] := by
    rw [heq]
    exact List.cons_ne_nil c rest
  have hmap : (storageAccountName d).map lowerChar = storageAccountName d := by
    conv_rhs => rw [← List.map_id (storageAccountName d)]
    exact List.map_congr_left (fun a ha => lowerChar_fixed a (hclass a ha))
  have hfilter : (storageAccountName d).filter isPyAlnum = storageAccountName d := by
    apply List.filter_eq_self.mpr
    intro a ha
    have := hclass a ha
    simp only [isPyAlnum, Bool.or_eq_true, Bool.and_eq_true, decide_eq_true_eq]
    omega
  have hstage1 : lowerAlnumStage (storageAccountName d) = storageAccountName d := by
    unfold lowerAlnumStage
    rw [if_neg hyne, hmap, hfilter]
  have hstage2 : padStage (storageAccountName d) = storageAccountName d := by
    unfold padStage
    rw [if_neg (by omega)]
  have hstage3 : truncStage (storageAccountName d) = storageAccountName d := by
    unfold truncStage
    rw [if_neg (by omega)]
  have hforce : forceAlphaLead (storageAccountName d) = storageAccountName d := by
    rw [heq]
    simp only [forceAlphaLead]
    rw [if_pos]
    simp only [isPyAlpha, Bool.or_eq_true, Bool.and_eq_true, decide_eq_true_eq]
    omega
  show forceAlphaLead (truncStage (padStage (lowerAlnumStage (storageAccountName d)))) =
    storageAccountName d
  rw [hstage1, hstage2, hstage3, hforce]

/-- C9: the kind-specific tightening of storage-account names is idempotent,
and for every input yields a lowercase alphanumeric name of 3 to 24
characters whose first character is a lowercase letter, obtained by the
deterministic stx padding and st prefixing of the source. -/
theorem storage_tighten_idem_and_legal (d : Str) :
    storageAccountName (storageAccountName d) = storageAccountName d ∧
    3 ≤ (storageAccountName d).length ∧ (storageAccountName d).length ≤ 24 ∧
    (∀ c ∈ storageAccountName d, (97 ≤ c ∧ c ≤ 122) ∨ (48 ≤ c ∧ c ≤ 57)) ∧
    (∃ c rest, storageAccountName d = c :: rest ∧ 97 ≤ c ∧ c ≤ 122) :=
  ⟨storageAccountName_idem d, storageAccountName_props d⟩

/-- C9 witness: the 2-character desired name ab of the spec scenarios is
deterministically padded to abs, and tightening fixes that output. -/
theorem storage_tighten_witness :
    storageAccountName "ab".codes = "abs".codes ∧
    storageAccountName (storageAccountName "ab".codes) = storageAccountName "ab".codes :=
  ⟨by decide, (storage_tighten_idem_and_legal ("ab".codes)).1⟩

/-- A graph containing an unregistered kind has a first unregistered kind in
node order. -/
theorem firstUnsupported_of_exists (ns : List Node)
    (h : ∃ n ∈ ns, supportedKinds.contains n.kind = false) :
    ∃ k, firstUnsupported ns = some k ∧ supportedKinds.contains k = false := by
  induction ns with
  | nil => simp at h
  | cons n rest ih =>
    by_cases hn : supportedKinds.contains n.kind = true
    · have h2 : ∃ m ∈ rest, supportedKinds.contains m.kind = false := by
        rcases h with ⟨m, hm, hmf⟩
        rcases List.mem_cons.mp hm with rfl | hm2
        · rw [hn] at hmf
          cases hmf
        · exact ⟨m, hm2, hmf⟩
      obtain ⟨k, hk1, hk2⟩ := ih h2
      refine ⟨k, ?_, hk2⟩
      simp only [firstUnsupported, hn]
      rw [if_pos trivial, hk1]
    · have hnf : supportedKinds.contains n.kind = false := by
        cases hcc : supportedKinds.contains n.kind
        · rfl
        · exact absurd hcc hn
      refine ⟨n.kind, ?_, hnf⟩
      simp only [firstUnsupported, hnf]
      rw [if_neg Bool.false_ne_true]

/-- Node realization fails with the unsupported-kind message of the first
unregistered kind, from any starting state. -/
theorem processNodes_error (ns : List Node) (k : Str)
    (h : firstUnsupported ns = some k) :
    ∀ s, processNodes s ns = .error (unsupportedMsg k) := by
  induction ns with
  | nil => simp [firstUnsupported] at h
  | cons n rest ih =>
    intro s
    by_cases hn : supportedKinds.contains n.kind = true
    · simp only [firstUnsupported, hn] at h
      rw [if_pos trivial] at h
      simp only [processNodes, hn]
      rw [if_pos trivial]
      exact ih h (createNode s n)
    · have hnf : supportedKinds.contains n.kind = false := by
        cases hcc : supportedKinds.contains n.kind
        · rfl
        · exact absurd hcc hn
      simp only [firstUnsupported, hnf] at h
      rw [if_neg Bool.false_ne_true] at h
      simp only [processNodes, hnf]
      rw [if_neg Bool.false_ne_true]
      rw [Option.some.inj h]

/-- C3: an IR containing a node of unregistered kind makes apply_ir fail
with the unsupported-kind message, the failure is independent of the edge
list (no edge is ever resolved), and the message contains every registered
kind. -/
theorem unsupported_kind_fails (ir : IR)
    (h : ∃ n ∈ ir.nodes, supportedKinds.contains n.kind = false) :
    ∃ k, supportedKinds.contains k = false ∧
      applyIR ir = .error (unsupportedMsg k) ∧
      (∀ es, applyIR { ir with edges := es } = .error (unsupportedMsg k)) ∧
      (∀ kk ∈ supportedKinds, hasSeg kk (unsupportedMsg k) = true) := by
  obtain ⟨k, hk1, hk2⟩ := firstUnsupported_of_exists ir.nodes h
  refine ⟨k, hk2, ?_, ?_, ?_⟩
  · unfold applyIR
    rw [processNodes_error _ _ hk1]
    rfl
  · intro es
    unfold applyIR
    rw [processNodes_error _ _ hk1]
    rfl
  · intro kk hkk
    unfold unsupportedMsg
    exact hasSeg_append_left _ _ _ (hasSeg_joinSep _ _ _ hkk)

/-- C3 witness: the scenario node of kind not-a-real-kind fails compilation
regardless of edges, with the enumerating message. -/
theorem unsupported_kind_fails_witness :
    (∃ n ∈ unknownKindIR.nodes, supportedKinds.contains n.kind = false) ∧
    (∃ k, supportedKinds.contains k = false ∧
      applyIR unknownKindIR = .error (unsupportedMsg k) ∧
      (∀ es, applyIR { unknownKindIR with edges := es } = .error (unsupportedMsg k)) ∧
      (∀ kk ∈ supportedKinds, hasSeg kk (unsupportedMsg k) = true)) :=
  ⟨by decide, unsupported_kind_fails unknownKindIR (by decide)⟩

/-- C7: an edge whose intent is not notify, or with an endpoint record
missing from the node index, or whose ordered kind pair has no entry in the
connector chain, leaves the node index, outputs, bindings and exports
untouched and appends exactly one diagnostic. -/
theorem connect_skips (s : FabricState) (e : Edge)
    (h : e.intent ≠ "notify".codes
       ∨ dictGet s.nodeIndex e.fromId = none
       ∨ dictGet s.nodeIndex e.toId = none
       ∨ (∀ sk dk, dictGet s.nodeIndex e.fromId = some sk →
            dictGet s.nodeIndex e.toId = some dk → pairAct sk dk = none)) :
    (connect s e).nodeIndex = s.nodeIndex ∧
    (connect s e).outputs = s.outputs ∧
    (connect s e).bindings = s.bindings ∧
    (connect s e).exports = s.exports ∧
    (connect s e).diagnostics.dropLast = s.diagnostics ∧
    (connect s e).diagnostics.length = s.diagnostics.length + 1 := by
  have key : ∃ d, connect s e = { s with diagnostics := s.diagnostics ++ [d] } := by
    unfold connect
    by_cases h1 : (e.fromId == [] || e.toId == []) = true
    · rw [if_pos h1]
      exact ⟨_, rfl⟩
    · rw [if_neg h1]
      by_cases hb : (e.intent != "notify".codes) = true
      · rw [if_pos hb]
        exact ⟨_, rfl⟩
      · rw [if_neg hb]
        have h2 : e.intent = "notify".codes := by
          simpa using hb
        cases hfrom : dictGet s.nodeIndex e.fromId with
        | none =>
          exact ⟨noConnectorMsg none (dictGet s.nodeIndex e.toId), rfl⟩
        | some sk =>
          cases hto : dictGet s.nodeIndex e.toId with
          | none =>
            exact ⟨noConnectorMsg (some sk) none, rfl⟩
          | some dk =>
            have hpa : pairAct sk dk = none := by
              rcases h with h | h | h | h
              · exact absurd h2 h
              · rw [hfrom] at h
                cases h
              · rw [hto] at h
                cases h
              · exact h sk dk hfrom hto
            refine ⟨noConnectorMsg (some sk) (some dk), ?_⟩
            show connectPair s e sk dk = _
            unfold connectPair
            rw [hpa]
  obtain ⟨d, hd⟩ := key
  rw [hd]
  refine ⟨rfl, rfl, rfl, rfl, List.dropLast_concat, by simp⟩

/-- C7 witness: an unrecognized intent between endpoints absent from the
node index is skipped with a single diagnostic and no effect. -/
theorem connect_skips_witness :
    (connect {} { fromId := "a".codes, toId := "b".codes, intent := "weird".codes }).exports =
      ({} : FabricState).exports ∧
    (connect {} { fromId := "a".codes, toId := "b".codes, intent := "weird".codes }).bindings =
      ({} : FabricState).bindings ∧
    (connect {} { fromId := "a".codes, toId := "b".codes, intent := "weird".codes }).diagnostics.length =
      ({} : FabricState).diagnostics.length + 1 := by
  have h := connect_skips {} { fromId := "a".codes, toId := "b".codes, intent := "weird".codes }
    (Or.inl (by decide))
  exact ⟨h.2.2.2.1, h.2.2.1, h.2.2.2.2.2⟩

/-- The validity flag of a report is, definitionally, the emptiness of its
error list. -/
theorem validate_valid_eq (ir : IR) :
    (PayloadValidator.validate ir).valid = (PayloadValidator.validate ir).errors.isEmpty := rfl

/-- The error list of a report is the per-node errors, the duplicate-id
error, then the edge-endpoint errors. -/
theorem validate_errors_eq (ir : IR) :
    (PayloadValidator.validate ir).errors =
      ir.nodes.flatMap nodeErrors ++ dupErrors (ir.nodes.map Node.id) ++
        ir.edges.flatMap (edgeErrors (ir.nodes.map Node.id)) := rfl

/-- C8: validate reports valid exactly when its error list is empty (so
warnings never affect validity), and every id occurring more than once
forces valid to false with an error that names that id. -/
theorem validate_duplicates_and_valid (ir : IR) :
    ((PayloadValidator.validate ir).valid = true ↔ (PayloadValidator.validate ir).errors = []) ∧
    (∀ i, 1 < ((ir.nodes.map Node.id).count i) →
      (PayloadValidator.validate ir).valid = false ∧
      ∃ m ∈ (PayloadValidator.validate ir).errors, hasSeg i m = true) := by
  constructor
  · rw [validate_valid_eq]
    exact List.isEmpty_iff
  · intro i hcount
    have hmem : i ∈ ir.nodes.map Node.id := by
      have hpos : 0 < (ir.nodes.map Node.id).count i := by omega
      exact List.count_pos_iff.mp hpos
    have hdupmem : i ∈ dupIds (ir.nodes.map Node.id) := by
      unfold dupIds
      rw [List.mem_filter]
      exact ⟨hmem, by simpa using hcount⟩
    have hne : dupIds (ir.nodes.map Node.id) ≠ [] := List.ne_nil_of_mem hdupmem
    have hdup : dupErrors (ir.nodes.map Node.id) =
        ["Duplicate node IDs found: ".codes ++
          joinSep ", ".codes (dupIds (ir.nodes.map Node.id)).dedup ++
          ". Each node must have a unique ID.".codes] := by
      unfold dupErrors
      rw [if_neg (by simpa using hne)]
    have hin : ("Duplicate node IDs found: ".codes ++
        joinSep ", ".codes (dupIds (ir.nodes.map Node.id)).dedup ++
        ". Each node must have a unique ID.".codes) ∈ (PayloadValidator.validate ir).errors := by
      rw [validate_errors_eq, hdup]
      simp [List.mem_append]
    refine ⟨?_, ?_⟩
    · have hnil : (PayloadValidator.validate ir).errors ≠ [] := List.ne_nil_of_mem hin
      rw [validate_valid_eq, Bool.eq_false_iff]
      intro hemp
      exact hnil (List.isEmpty_iff.mp hemp)
    · refine ⟨_, hin, ?_⟩
      apply hasSeg_append_right
      apply hasSeg_append_left
      exact hasSeg_joinSep _ _ _ (List.mem_dedup.mpr hdupmem)

/-- C8 witness: two nodes sharing the id a yield an invalid report whose
error names a. -/
theorem validate_duplicates_witness :
    1 < ((dupIdsIR.nodes.map Node.id).count ("a".codes)) ∧
    (PayloadValidator.validate dupIdsIR).valid = false ∧
    ∃ m ∈ (PayloadValidator.validate dupIdsIR).errors, hasSeg "a".codes m = true := by
  have h := (validate_duplicates_and_valid dupIdsIR).2 ("a".codes) (by decide)
  exact ⟨by decide, h.1, h.2⟩

/-- Splitting at a separator absent from both leading parts is
unambiguous. -/
theorem split_at_sep (sep : Nat) :
    ∀ u v x y : Str, sep ∉ u → sep ∉ v → u ++ sep :: x = v ++ sep :: y →
      u = v ∧ x = y := by
  intro u
  induction u with
  | nil =>
    intro v x y _ hv h
    cases v with
    | nil =>
      simp only [List.nil_append] at h
      injection h with h1 h2
      exact ⟨rfl, h2⟩
    | cons b bs =>
      simp only [List.nil_append, List.cons_append] at h
      injection h with h1 h2
      exact absurd (h1 ▸ List.mem_cons_self b bs) hv
  | cons a xs ih =>
    intro v x y hu hv h
    cases v with
    | nil =>
      simp only [List.nil_append, List.cons_append] at h
      injection h with h1 h2
      exact absurd (h1.symm ▸ List.mem_cons_self a xs) hu
    | cons b bs =>
      simp only [List.cons_append] at h
      injection h with h1 h2
      have hu2 : sep ∉ xs := fun hx => hu (List.mem_cons_of_mem a hx)
      have hv2 : sep ∉ bs := fun hx => hv (List.mem_cons_of_mem b hx)
      obtain ⟨he1, he2⟩ := ih bs x y hu2 hv2 h2
      exact ⟨by rw [h1, he1], he2⟩

/-- Splitting at a separator absent from both trailing parts is
unambiguous. -/
theorem split_at_last_sep (sep : Nat) (x y a b : Str) (ha : sep ∉ a) (hb : sep ∉ b)
    (h : x ++ sep :: a = y ++ sep :: b) : x = y ∧ a = b := by
  have hrev : a.reverse ++ sep :: x.reverse = b.reverse ++ sep :: y.reverse := by
    have := congrArg List.reverse h
    simpa [List.reverse_append, List.append_assoc] using this
  have ha2 : sep ∉ a.reverse := fun hx => ha (List.mem_reverse.mp hx)
  have hb2 : sep ∉ b.reverse := fun hx => hb (List.mem_reverse.mp hx)
  obtain ⟨h1, h2⟩ := split_at_sep sep a.reverse b.reverse x.reverse y.reverse ha2 hb2 hrev
  constructor
  · rw [← List.reverse_inj]
    exact h2
  · rw [← List.reverse_inj]
    exact h1

/-- A generated key determines its kind tag, logical name and attribute when
tags and attributes are hyphen-free. -/
theorem mkKey_inj (t1 l1 a1 t2 l2 a2 : Str)
    (h1 : hyphen ∉ t1) (h2 : hyphen ∉ t2) (h3 : hyphen ∉ a1) (h4 : hyphen ∉ a2)
    (h : mkKey t1 l1 a1 = mkKey t2 l2 a2) : t1 = t2 ∧ l1 = l2 ∧ a1 = a2 := by
  unfold mkKey at h
  obtain ⟨ht, hrest⟩ := split_at_sep hyphen t1 t2 _ _ h1 h2 h
  obtain ⟨hl, hattr⟩ := split_at_last_sep hyphen l1 l2 a1 a2 h3 h4 hrest
  exact ⟨ht, hl, hattr⟩

set_option maxHeartbeats 2000000

/-- No kind tag contains a hyphen. -/
theorem kindTag_no_hyphen (k : Str) : hyphen ∉ kindTag k := by
  unfold kindTag
  split_ifs <;> decide

/-- The attribute list of every kind has no duplicates and none of its
attributes contains a hyphen. -/
theorem kindAttrs_facts (k : Str) :
    (kindAttrs k).Nodup ∧ ∀ a ∈ kindAttrs k, hyphen ∉ a := by
  unfold kindAttrs
  by_cases h1 : (k == "azure.storage".codes) = true
  · rw [if_pos h1]
    decide
  rw [if_neg h1]
  by_cases h2 : (k == "azure.servicebus".codes) = true
  · rw [if_pos h2]
    decide
  rw [if_neg h2]
  by_cases h3 : (k == "azure.containerapp".codes) = true
  · rw [if_pos h3]
    decide
  rw [if_neg h3]
  by_cases h4 : (k == "azure.vm".codes) = true
  · rw [if_pos h4]
    decide
  rw [if_neg h4]
  by_cases h5 : (k == "azure.functionapp".codes) = true
  · rw [if_pos h5]
    decide
  rw [if_neg h5]
  by_cases h6 : (k == "azure.sql".codes) = true
  · rw [if_pos h6]
    decide
  rw [if_neg h6]
  by_cases h7 : (k == "azure.cosmosdb".codes) = true
  · rw [if_pos h7]
    decide
  rw [if_neg h7]
  by_cases h8 : (k == "azure.apimanagement".codes) = true
  · rw [if_pos h8]
    decide
  rw [if_neg h8]
  by_cases h9 : (k == "azure.keyvault".codes) = true
  · rw [if_pos h9]
    decide
  rw [if_neg h9]
  by_cases h10 : (k == "azure.appinsights".codes) = true
  · rw [if_pos h10]
    decide
  rw [if_neg h10]
  by_cases h11 : (k == "azure.vnet".codes) = true
  · rw [if_pos h11]
    decide
  rw [if_neg h11]
  decide

/-- No output-key attribute contains a hyphen. -/
theorem kindAttrs_no_hyphen (k : Str) : ∀ a ∈ kindAttrs k, hyphen ∉ a :=
  (kindAttrs_facts k).2

/-- The attribute list of every kind has no duplicates. -/
theorem kindAttrs_nodup (k : Str) : (kindAttrs k).Nodup :=
  (kindAttrs_facts k).1

/-- For a fixed tag and logical name, the key former is injective in the
attribute. -/
theorem mkKey_attr_inj (tag log : Str) : Function.Injective (mkKey tag log) := by
  intro a b h
  unfold mkKey at h
  have h2 := List.append_cancel_left h
  injection h2 with _ h3
  have h4 := List.append_cancel_left h3
  injection h4 with _ h5

/-- The keys one node contributes are pairwise distinct. -/
theorem nodeOutputKeys_nodup (n : Node) : (nodeOutputKeys n).Nodup :=
  (kindAttrs_nodup n.kind).map (mkKey_attr_inj (kindTag n.kind) (logicalName n))

/-- Nodes with different key scopes contribute disjoint keys. -/
theorem nodeOutputKeys_disjoint (n1 n2 : Node) (h : keyScope n1 ≠ keyScope n2) :
    List.Disjoint (nodeOutputKeys n1) (nodeOutputKeys n2) := by
  intro k hk1 hk2
  obtain ⟨a1, ha1, heq1⟩ := List.mem_map.mp hk1
  obtain ⟨a2, ha2, heq2⟩ := List.mem_map.mp hk2
  obtain ⟨ht, hl, _⟩ := mkKey_inj _ _ _ _ _ _
    (kindTag_no_hyphen n1.kind) (kindTag_no_hyphen n2.kind)
    (kindAttrs_no_hyphen n1.kind a1 ha1) (kindAttrs_no_hyphen n2.kind a2 ha2)
    (heq1.trans heq2.symm)
  exact h (by simp [keyScope, ht, hl])

/-- Edge resolution never touches the outputs dictionary. -/
theorem connect_outputs (s : FabricState) (e : Edge) :
    (connect s e).outputs = s.outputs := by
  unfold connect connectPair
  split
  · rfl
  split
  · rfl
  split
  · split <;> rfl
  · rfl

/-- Folding edge resolution never touches the outputs dictionary. -/
theorem foldl_connect_outputs (es : List Edge) :
    ∀ s : FabricState, (es.foldl connect s).outputs = s.outputs := by
  induction es with
  | nil => intro s; rfl
  | cons e rest ih =>
    intro s
    rw [List.foldl_cons, ih (connect s e), connect_outputs]

/-- A dict assignment with a fresh key appends. -/
theorem outSet_fresh (d : List OutEntry) (e : OutEntry)
    (h : ∀ x ∈ d, x.key ≠ e.key) : outSet d e = d ++ [e] := by
  have hany : d.any (fun x => x.key == e.key) = false := by
    cases hh : d.any (fun x => x.key == e.key)
    · rfl
    · exfalso
      obtain ⟨x, hx, hxe⟩ := List.any_eq_true.mp hh
      exact h x hx (by simpa using hxe)
  unfold outSet
  rw [hany, if_neg Bool.false_ne_true]

/-- A run of dict assignments whose keys are fresh and pairwise distinct is
a plain append. -/
theorem outSetMany_fresh :
    ∀ (es : List OutEntry) (d : List OutEntry),
      (∀ x ∈ d, ∀ y ∈ es, x.key ≠ y.key) → (es.map OutEntry.key).Nodup →
      outSetMany d es = d ++ es := by
  intro es
  induction es with
  | nil =>
    intro d _ _
    simp [outSetMany]
  | cons e rest ih =>
    intro d hfresh hnodup
    have hcons : e.key ∉ rest.map OutEntry.key ∧ (rest.map OutEntry.key).Nodup := by
      rw [List.map_cons] at hnodup
      exact List.nodup_cons.mp hnodup
    have h2 : ∀ x ∈ d ++ [e], ∀ y ∈ rest, x.key ≠ y.key := by
      intro x hx y hy
      rcases List.mem_append.mp hx with hx1 | hx2
      · exact hfresh x hx1 y (List.mem_cons_of_mem e hy)
      · rw [List.mem_singleton.mp hx2]
        intro heq
        exact hcons.1 (heq ▸ List.mem_map_of_mem OutEntry.key hy)
    have h3 := ih (d ++ [e]) h2 hcons.2
    unfold outSetMany at h3 ⊢
    rw [List.foldl_cons,
      outSet_fresh d e (fun x hx => hfresh x hx e (List.mem_cons_self e rest)), h3]
    simp

/-- A successful node pass assigns exactly the per-node output entries, in
node order. -/
theorem processNodes_ok_outputs :
    ∀ (ns : List Node) (s t : FabricState), processNodes s ns = .ok t →
      t.outputs = outSetMany s.outputs (ns.flatMap nodeOutputEntries) := by
  intro ns
  induction ns with
  | nil =>
    intro s t h
    simp only [processNodes, Except.ok.injEq] at h
    rw [← h]
    simp [outSetMany]
  | cons n rest ih =>
    intro s t h
    simp only [processNodes] at h
    by_cases hn : supportedKinds.contains n.kind = true
    · rw [if_pos hn] at h
      rw [ih (createNode s n) t h]
      show outSetMany (outSetMany s.outputs (nodeOutputEntries n))
          (rest.flatMap nodeOutputEntries) =
        outSetMany s.outputs ((n :: rest).flatMap nodeOutputEntries)
      rw [List.flatMap_cons]
      unfold outSetMany
      exact (List.foldl_append _ _ _ _).symm
    · rw [if_neg hn] at h
      simp at h

/-- The keys of the contributed entries are the contributed keys. -/
theorem map_key_entries (ns : List Node) :
    (ns.flatMap nodeOutputEntries).map OutEntry.key = ns.flatMap nodeOutputKeys := by
  rw [List.map_flatMap]
  have hfun : (fun n => (nodeOutputEntries n).map OutEntry.key) = nodeOutputKeys := by
    funext n
    unfold nodeOutputEntries
    rw [List.map_map]
    exact List.map_id _
  rw [hfun]

/-- C1 (amended): when no two nodes share a key scope (kind tag plus
truncated sanitized logical name), the contributed output keys are pairwise
distinct and a successful apply_ir accumulates exactly those keys with no
overwriting. -/
theorem apply_ir_keys_nodup (ir : IR)
    (h : ir.nodes.Pairwise (fun a b => keyScope a ≠ keyScope b)) :
    (ir.nodes.flatMap nodeOutputKeys).Nodup ∧
    (∀ t, applyIR ir = .ok t →
      t.outputs.map OutEntry.key = ir.nodes.flatMap nodeOutputKeys) := by
  have hnodup : (ir.nodes.flatMap nodeOutputKeys).Nodup :=
    List.nodup_flatMap.mpr
      ⟨fun n _ => nodeOutputKeys_nodup n,
       h.imp (fun hab => nodeOutputKeys_disjoint _ _ hab)⟩
  refine ⟨hnodup, ?_⟩
  intro t ht
  unfold applyIR at ht
  cases hpn : processNodes {} ir.nodes with
  | error e =>
    rw [hpn] at ht
    simp [Except.map] at ht
  | ok s0 =>
    rw [hpn] at ht
    simp only [Except.map, Except.ok.injEq] at ht
    rw [← ht, foldl_connect_outputs]
    rw [processNodes_ok_outputs ir.nodes {} s0 hpn]
    have hfresh : ∀ x ∈ ({} : FabricState).outputs,
        ∀ y ∈ ir.nodes.flatMap nodeOutputEntries, x.key ≠ y.key := by
      intro x hx
      cases hx
    rw [outSetMany_fresh _ _ hfresh (by rw [map_key_entries]; exact hnodup)]
    rw [List.nil_append, map_key_entries]

/-- C1 counterexample: two azure.storage nodes with the distinct ids a_b and
a.b sanitize to the same logical name, contribute the same two keys, and the
second node silently overwrites the first in the accumulated outputs. -/
theorem apply_ir_key_collision :
    (collideIR.nodes.map Node.id).Nodup ∧
    (∀ n ∈ collideIR.nodes, supportedKinds.contains n.kind = true) ∧
    ¬ (collideIR.nodes.flatMap nodeOutputKeys).Nodup ∧
    applyIR collideIR = .ok
      { nodeIndex := [("a_b".codes, kStorage), ("a.b".codes, kStorage)],
        outputs := [⟨"storage-a-b-accountName".codes, "a.b".codes⟩,
                    ⟨"storage-a-b-conn".codes, "a.b".codes⟩] } :=
  ⟨by decide, by decide, by decide, by decide⟩

/-- C1 witness: in the registered two-node scenario the key scopes differ
and the contributed keys are pairwise distinct. -/
theorem apply_ir_keys_nodup_witness :
    scenarioRegisteredIR.nodes.Pairwise (fun a b => keyScope a ≠ keyScope b) ∧
    (scenarioRegisteredIR.nodes.flatMap nodeOutputKeys).Nodup :=
  ⟨by decide, (apply_ir_keys_nodup scenarioRegisteredIR (by decide)).1⟩

/-- C4 counterexample: on the IR spelled out by the claim, with kinds
object-storage and message-queue, apply_ir fails with the unsupported-kind
error (those tags are not registry keys), so compilation does not
succeed. -/
theorem scenario_kinds_unregistered :
    applyIR scenarioIR = .error (unsupportedMsg "object-storage".codes) := by decide

/-- C4 (amended): on the scenario IR with the registered kinds azure.storage
and azure.servicebus, compilation succeeds, produces the two output keys of
each node, declares the structural event-grid subscription between them, and
emits no diagnostics and no edge exports. -/
theorem scenario_registered_succeeds :
    applyIR scenarioRegisteredIR = .ok
      { nodeIndex := [("s1".codes, kStorage), ("q1".codes, kServicebus)],
        outputs := [⟨"storage-s1-accountName".codes, "s1".codes⟩,
                    ⟨"storage-s1-conn".codes, "s1".codes⟩,
                    ⟨"servicebus-q1-queueName".codes, "q1".codes⟩,
                    ⟨"servicebus-q1-conn".codes, "q1".codes⟩],
        bindings := ["egsub-s1-to-q1".codes],
        exports := [],
        diagnostics := [] } := by decide

/-- C5 counterexample: an IR with a duplicate node id and a dangling edge is
reported invalid by the validator, yet the up path compiles it without
raising anything: the duplicate silently overwrites and the dangling edge
degrades to a diagnostic. -/
theorem up_ignores_structural_defects :
    (PayloadValidator.validate defectiveIR).valid = false ∧
    upCompile defectiveIR = .ok
      { nodeIndex := [("x".codes, kStorage)],
        outputs := [⟨"storage-okstorage1-accountName".codes, "x".codes⟩,
                    ⟨"storage-okstorage1-conn".codes, "x".codes⟩],
        bindings := [],
        exports := [],
        diagnostics := [noConnectorMsg (some kStorage) none] } :=
  ⟨by decide, by decide⟩

/-- A node pass over registered kinds always succeeds, from any state. -/
theorem processNodes_ok_of_supported :
    ∀ (ns : List Node) (s : FabricState),
      (∀ n ∈ ns, supportedKinds.contains n.kind = true) →
      ∃ t, processNodes s ns = .ok t := by
  intro ns
  induction ns with
  | nil =>
    intro s _
    exact ⟨s, rfl⟩
  | cons n rest ih =>
    intro s h
    have hn := h n (List.mem_cons_self n rest)
    obtain ⟨t, ht⟩ := ih (createNode s n) (fun m hm => h m (List.mem_cons_of_mem n hm))
    refine ⟨t, ?_⟩
    simp only [processNodes]
    rw [if_pos hn]
    exact ht

/-- C5 (amended): the up path performs no structural validation: whenever
every node kind is registered, its compilation succeeds — duplicate ids,
dangling edges and illegal names never raise there; structural defects are
reported only by the validator, which the engine runs on the preview
path. -/
theorem up_compiles_all_registered (ir : IR)
    (h : ∀ n ∈ ir.nodes, supportedKinds.contains n.kind = true) :
    ∃ t, upCompile ir = .ok t := by
  obtain ⟨t0, ht0⟩ := processNodes_ok_of_supported ir.nodes {} h
  refine ⟨ir.edges.foldl connect t0, ?_⟩
  unfold upCompile applyIR
  rw [ht0]
  rfl

/-- C5 witness: the defective IR of the counterexample has only registered
kinds, and the up path compiles it. -/
theorem up_compiles_witness :
    (∀ n ∈ defectiveIR.nodes, supportedKinds.contains n.kind = true) ∧
    ∃ t, upCompile defectiveIR = .ok t :=
  ⟨by decide, up_compiles_all_registered defectiveIR (by decide)⟩

/-- C6: destroy with a failing stack lookup (no stack record exists for the
project and environment) and no credentials returns a non-destroyed result
whose message states that the stack was not found and that no credentials
were provided. -/
theorem destroy_no_stack_no_creds (p e err : Str) (dcall : Except Str Nat)
    (ddel : Creds → DirectDeleteResult) :
    (PulumiEngine.destroy p e none (.error err) dcall ddel).destroyed = false ∧
    hasSeg "not found".codes
      (PulumiEngine.destroy p e none (.error err) dcall ddel).message = true ∧
    hasSeg "no credentials provided".codes
      (PulumiEngine.destroy p e none (.error err) dcall ddel).message = true ∧
    (PulumiEngine.destroy p e none (.error err) dcall ddel).message =
      "Stack \x27".codes ++ p ++ "-".codes ++ e ++
        "\x27 not found and no credentials provided for direct deletion.".codes := by
  refine ⟨rfl, ?_, ?_, rfl⟩
  · exact hasSeg_append_left _ _ _ (by decide)
  · exact hasSeg_append_left _ _ _ (by decide)

/-- C6 witness: the scenario destroy of project p and env d with no prior
stack and no credentials. -/
theorem destroy_no_stack_witness :
    (PulumiEngine.destroy "p".codes "d".codes none (.error "stack not found".codes)
      (.ok 0) (fun _ => ⟨false, []⟩)).destroyed = false ∧
    hasSeg "not found".codes
      (PulumiEngine.destroy "p".codes "d".codes none (.error "stack not found".codes)
        (.ok 0) (fun _ => ⟨false, []⟩)).message = true := by
  have h := destroy_no_stack_no_creds "p".codes "d".codes "stack not found".codes
    (.ok 0) (fun _ => ⟨false, []⟩)
  exact ⟨h.1, h.2.1⟩

/-- C10 counterexample: an IR with unique ids and well-formed edges that
contains an unregistered kind is nevertheless reported invalid, because a
registered storage node in it carries an illegal account name — so validate
does not return valid for every such IR. -/
theorem validate_mixed_bad_name :
    (mixedBadNameIR.nodes.map Node.id).Nodup ∧
    (∀ e ∈ mixedBadNameIR.edges, e.fromId ∈ mixedBadNameIR.nodes.map Node.id ∧
       e.toId ∈ mixedBadNameIR.nodes.map Node.id) ∧
    (∃ n ∈ mixedBadNameIR.nodes, supportedKinds.contains n.kind = false) ∧
    (PayloadValidator.validate mixedBadNameIR).valid = false :=
  ⟨by decide, by decide, by decide, by decide⟩

/-- C10 (amended): validate performs no kind-registration check — a node of
unregistered kind contributes no errors at all, and an IR with unique node
ids, edges whose endpoints exist, and no per-kind naming error validates as
valid even when kinds are unregistered. -/
theorem validate_no_kind_check (ir : IR) :
    (∀ n ∈ ir.nodes, supportedKinds.contains n.kind = false → nodeErrors n = []) ∧
    ((ir.nodes.map Node.id).Nodup →
     (∀ e ∈ ir.edges, e.fromId ∈ ir.nodes.map Node.id ∧
        e.toId ∈ ir.nodes.map Node.id) →
     (∀ n ∈ ir.nodes, nodeErrors n = []) →
     (PayloadValidator.validate ir).valid = true) := by
  constructor
  · intro n _ hn
    have hks : ¬ (n.kind == kStorage) = true := by
      intro hb
      have hkk : n.kind = kStorage := by simpa using hb
      rw [hkk] at hn
      have htrue : supportedKinds.contains kStorage = true := by decide
      rw [htrue] at hn
      cases hn
    have hkv : ¬ (n.kind == kKeyvault) = true := by
      intro hb
      have hkk : n.kind = kKeyvault := by simpa using hb
      rw [hkk] at hn
      have htrue : supportedKinds.contains kKeyvault = true := by decide
      rw [htrue] at hn
      cases hn
    unfold nodeErrors
    rw [if_neg hks, if_neg hkv]
  · intro hids hedges hnode
    have h1 : ir.nodes.flatMap nodeErrors = [] := List.flatMap_eq_nil_iff.mpr hnode
    have hcle : ∀ (l : List Str) (a : Str), l.Nodup → l.count a ≤ 1 := by
      intro l
      induction l with
      | nil => intro a _; simp
      | cons b t ih =>
        intro a hnd
        obtain ⟨hb, ht⟩ := List.nodup_cons.mp hnd
        rw [List.count_cons]
        by_cases hba : (b == a) = true
        · have hbeq : b = a := by simpa using hba
          have hz : t.count a = 0 := by
            rw [List.count_eq_zero]
            rw [← hbeq]
            exact hb
          rw [if_pos hba, hz]
        · rw [if_neg hba]
          have := ih a ht
          omega
    have h2 : dupErrors (ir.nodes.map Node.id) = [] := by
      have hdups : dupIds (ir.nodes.map Node.id) = [] := by
        unfold dupIds
        rw [List.filter_eq_nil_iff]
        intro a _
        have := hcle (ir.nodes.map Node.id) a hids
        simp only [decide_eq_true_eq]
        omega
      unfold dupErrors
      rw [if_pos (by rw [hdups]; rfl)]
    have h3 : ir.edges.flatMap (edgeErrors (ir.nodes.map Node.id)) = [] := by
      rw [List.flatMap_eq_nil_iff]
      intro e he
      obtain ⟨hf, ht⟩ := hedges e he
      have hfc : (ir.nodes.map Node.id).contains e.fromId = true :=
        List.elem_iff.mpr hf
      have htc : (ir.nodes.map Node.id).contains e.toId = true :=
        List.elem_iff.mpr ht
      unfold edgeErrors
      rw [hfc, htc]
      simp
    have herr : (PayloadValidator.validate ir).errors = [] := by
      rw [validate_errors_eq, h1, h2, h3]
      rfl
    rw [validate_valid_eq, herr]
    rfl

/-- C10 witness: an IR whose kinds are all unregistered, with unique ids and
well-formed edges, passes validation while apply_ir rejects it. -/
theorem validate_no_kind_check_witness :
    (PayloadValidator.validate unregisteredOnlyIR).valid = true ∧
    applyIR unregisteredOnlyIR = .error (unsupportedMsg "custom.kind".codes) := by
  refine ⟨?_, by decide⟩
  exact (validate_no_kind_check unregisteredOnlyIR).2 (by decide) (by decide) (by decide)

end AzurePulumi
